import Mathlib

/-!
Verification development for the snap-gallery media server: a shallow embedding of
the chunked-upload completion/merge handler (`POST /upload/complete`), the chunk
store written by `POST /upload/chunk`, and the byte-range streaming handler
(`GET /stream/:folder/:filename`), together with proofs about them.

Bytes are modelled as `Nat`, byte sequences as `List Nat`, JavaScript strings as
Lean `String` (or `List Char` where character-level work is needed), and the
possibly-`NaN` results of `parseInt` as `Option Int` with `none` standing for `NaN`.
-/

set_option maxRecDepth 40000

namespace SnapGallery

/-! ### JavaScript primitives used by the handlers -/

/-- Truthiness of an optional string form field: `undefined` and `""` are falsy. -/
def truthyS : Option String → Bool
  | none => false
  | some s => !(s == "")

/-- JavaScript `a || d` for an optional string `a`: the default wins when `a`
is `undefined` or the empty string. -/
def jsOrS : Option String → String → String
  | none, d => d
  | some s, d => if s == "" then d else s

/-- Value of a list of decimal digit characters, most significant first. -/
def digitsVal (cs : List Char) : Nat :=
  cs.foldl (fun a c => 10 * a + (c.toNat - 48)) 0

/-- `parseInt(s, 10)`: skip leading spaces, optional sign, then the longest
prefix of decimal digits; `none` (`NaN`) when no digit is found. -/
def parseIntJS (s : String) : Option Int :=
  let cs := s.toList.dropWhile (fun c => c == ' ')
  match cs with
  | '-' :: rest =>
    let ds := rest.takeWhile Char.isDigit
    if ds = [] then none else some (-(digitsVal ds : Int))
  | '+' :: rest =>
    let ds := rest.takeWhile Char.isDigit
    if ds = [] then none else some ((digitsVal ds : Int))
  | rest =>
    let ds := rest.takeWhile Char.isDigit
    if ds = [] then none else some ((digitsVal ds : Int))

/-- `Number(s)` restricted to the shapes the completion endpoint is exercised
with (an optional sign followed by decimal digits, or the empty string, which
is `0`). Other strings are mapped to `none` (`NaN`); fractional or padded
numerals, which JavaScript would also accept, do not occur in the claims. -/
def jsNumber (s : String) : Option Int :=
  match s.toList with
  | [] => some 0
  | '-' :: ds => if ds ≠ [] ∧ ds.all Char.isDigit then some (-(digitsVal ds : Int)) else none
  | ds => if ds.all Char.isDigit then some ((digitsVal ds : Int)) else none

/-- Number of iterations performed by `for (let i = 0; i < Number(tc); i++)`:
zero when `Number(tc)` is `NaN` or non-positive. -/
def jsLoopCount (s : String) : Nat :=
  match jsNumber s with
  | none => 0
  | some z => z.toNat

/-- ASCII `toLowerCase`. -/
def toLowerStr (s : String) : String :=
  String.mk (s.toList.map Char.toLower)

/-! ### Decimal rendering of naturals

`Nat.repr` (used for the `${i}` template interpolations) must be injective for
distinct chunk indices to name distinct chunk files. Core provides no such
lemma, so we characterise `Nat.toDigitsCore` and invert it by `digitsVal`. -/

/-- Fuel-free most-significant-first decimal digits of `n`. -/
def toDigits10 (n : Nat) : List Char :=
  if h : n / 10 = 0 then [Nat.digitChar (n % 10)]
  else toDigits10 (n / 10) ++ [Nat.digitChar (n % 10)]
termination_by n
decreasing_by
  exact Nat.div_lt_self (Nat.pos_of_ne_zero (fun hn => h (by simp [hn]))) (by omega)

theorem toDigitsCore_eq : ∀ (fuel n : Nat) (ds : List Char), n < fuel →
    Nat.toDigitsCore 10 fuel n ds = toDigits10 n ++ ds := by
  intro fuel
  induction fuel with
  | zero => intro n ds h; omega
  | succ f ih =>
    intro n ds h
    by_cases h0 : n / 10 = 0
    · rw [Nat.toDigitsCore, toDigits10]
      simp [h0]
    · have hpos : 0 < n := Nat.pos_of_ne_zero (fun hn => h0 (by simp [hn]))
      have hlt : n / 10 < f := by
        have := Nat.div_lt_self hpos (by omega : 1 < 10)
        omega
      rw [Nat.toDigitsCore]
      simp only [h0, if_false]
      rw [ih (n / 10) _ hlt]
      conv_rhs => rw [toDigits10]
      simp [h0, List.append_assoc]

theorem digitChar_sub : ∀ d < 10, (Nat.digitChar d).toNat - 48 = d := by decide

theorem digitsVal_toDigits10 (n : Nat) : digitsVal (toDigits10 n) = n := by
  induction n using Nat.strong_induction_on with
  | _ n ih =>
    rw [toDigits10]
    by_cases h0 : n / 10 = 0
    · simp only [h0, dif_pos]
      have hm : n % 10 < 10 := Nat.mod_lt _ (by omega)
      have := digitChar_sub (n % 10) hm
      have hdm := Nat.div_add_mod n 10
      simp [digitsVal, this]
      omega
    · have hpos : 0 < n := Nat.pos_of_ne_zero (fun hn => h0 (by simp [hn]))
      have hlt : n / 10 < n := Nat.div_lt_self hpos (by omega)
      simp only [h0, dif_neg, not_false_iff]
      have hval := ih (n / 10) hlt
      have hm : n % 10 < 10 := Nat.mod_lt _ (by omega)
      have hd := digitChar_sub (n % 10) hm
      have hdm := Nat.div_add_mod n 10
      have happ : digitsVal (toDigits10 (n / 10) ++ [Nat.digitChar (n % 10)]) =
          10 * digitsVal (toDigits10 (n / 10)) + ((Nat.digitChar (n % 10)).toNat - 48) := by
        simp [digitsVal, List.foldl_append]
      rw [happ, hval, hd]
      omega

theorem repr_data (n : Nat) : (Nat.repr n).data = toDigits10 n := by
  show ((Nat.toDigits 10 n).asString).data = toDigits10 n
  rw [Nat.toDigits, toDigitsCore_eq (n + 1) n [] (by omega)]
  simp [List.asString]

theorem natRepr_inj {m n : Nat} (h : Nat.repr m = Nat.repr n) : m = n := by
  have hd := congrArg String.data h
  rw [repr_data, repr_data] at hd
  have := congrArg digitsVal hd
  rwa [digitsVal_toDigits10, digitsVal_toDigits10] at this

/-! ### The transient chunk store

`POST /upload/chunk` persists each chunk payload as a file named
`` `${uploadId}-${chunkIndex}` `` in the shared `tmp_chunks` directory, a later
chunk with the same name silently overwriting an earlier one (multer writes to
the computed filename).  The directory is modelled as a map from file name to
stored bytes. -/

def Store := String → Option (List Nat)

def emptyStore : Store := fun _ => none

def storePut (st : Store) (k : String) (v : List Nat) : Store :=
  fun k' => if k' = k then some v else st k'

def storeDelete (st : Store) (k : String) : Store :=
  fun k' => if k' = k then none else st k'

/-- The chunk-receive side effect: persist `payload` under
`` `${uploadId}-${chunkIndex}` ``, last write wins. -/
def receive (st : Store) (uploadId chunkIndex : String) (payload : List Nat) : Store :=
  storePut st (uploadId ++ "-" ++ chunkIndex) payload

/-- The file name the merge loop looks up for chunk `i`:
`` path.join(tmpChunkDir, `${uploadId}-${i}`) `` with the directory elided. -/
def chunkKey (uploadId : String) (i : Nat) : String :=
  uploadId ++ "-" ++ toString i

theorem chunkKey_inj {u : String} {i j : Nat} (h : chunkKey u i = chunkKey u j) : i = j := by
  have hd := congrArg String.data h
  simp only [chunkKey, String.data_append] at hd
  have hr : (toString i).data = (toString j).data := List.append_cancel_left hd
  exact natRepr_inj (show Nat.repr i = Nat.repr j from by
    cases hti : Nat.repr i with
    | mk di =>
      cases htj : Nat.repr j with
      | mk dj =>
        have hr' : di = dj := by
          have : (Nat.repr i).data = (Nat.repr j).data := hr
          rw [hti, htj] at this
          exact this
        rw [hr'])

theorem storeDelete_ne (st : Store) (k k' : String) (h : k' ≠ k) :
    storeDelete st k k' = st k' := if_neg h

theorem storePut_ne (st : Store) (k k' : String) (v : List Nat) (h : k' ≠ k) :
    storePut st k v k' = st k' := if_neg h

theorem storePut_eq (st : Store) (k : String) (v : List Nat) :
    storePut st k v k = some v := if_pos rfl

/-! ### The merge loop of `POST /upload/complete`

```js
for (let i = 0; i < Number(totalChunks); i++) {
  const chunkPath = path.join(tmpChunkDir, `${uploadId}-${i}`);
  if (!fs.existsSync(chunkPath)) return res.status(400).send(`Chunk ${i} not found`);
  const chunkBuffer = fs.readFileSync(chunkPath);
  await ... writeStream.write(chunkBuffer, ...);
  fs.unlinkSync(chunkPath);
}
```

`written` is everything appended to the output file so far, `missing` records the
index at which the loop bailed out (the partial output and the already-deleted
chunks are not rolled back). -/

structure MergeResult where
  written : List Nat
  store : Store
  missing : Option Nat

/-- Structural recursion on the number of remaining iterations: the call for
the whole loop is `mergeLoop u total 0 st []`. -/
def mergeLoop (u : String) : Nat → Nat → Store → List Nat → MergeResult
  | 0, _, st, acc => ⟨acc, st, none⟩
  | rem + 1, i, st, acc =>
    match st (chunkKey u i) with
    | none => ⟨acc, st, some i⟩
    | some b => mergeLoop u rem (i + 1) (storeDelete st (chunkKey u i)) (acc ++ b)

theorem mergeLoop_ok (u : String) (payload : Nat → List Nat) :
    ∀ (rem i : Nat) (st : Store) (acc : List Nat),
      (∀ j, i ≤ j → j < i + rem → st (chunkKey u j) = some (payload j)) →
      (mergeLoop u rem i st acc).missing = none ∧
      (mergeLoop u rem i st acc).written = acc ++ ((List.range' i rem).map payload).flatten := by
  intro rem
  induction rem with
  | zero => intro i st acc _; simp [mergeLoop]
  | succ r ih =>
    intro i st acc hst
    have hi : st (chunkKey u i) = some (payload i) := hst i (Nat.le_refl i) (by omega)
    have hrec := ih (i + 1) (storeDelete st (chunkKey u i)) (acc ++ payload i) (by
      intro j hj1 hj2
      rw [storeDelete_ne]
      · exact hst j (by omega) (by omega)
      · intro hk
        have := chunkKey_inj hk
        omega)
    rw [mergeLoop, hi]
    refine ⟨hrec.1, ?_⟩
    rw [hrec.2, List.range'_succ, List.map_cons, List.flatten_cons, List.append_assoc]

theorem mergeLoop_missing (u : String) (payload : Nat → List Nat) (j : Nat) :
    ∀ (rem i : Nat) (st : Store) (acc : List Nat),
      i ≤ j → j < i + rem →
      st (chunkKey u j) = none →
      (∀ k, i ≤ k → k < j → st (chunkKey u k) = some (payload k)) →
      (mergeLoop u rem i st acc).missing = some j ∧
      (mergeLoop u rem i st acc).written =
        acc ++ ((List.range' i (j - i)).map payload).flatten := by
  intro rem
  induction rem with
  | zero => intro i st acc h1 h2 _ _; omega
  | succ r ih =>
    intro i st acc hij hjr hmiss hbefore
    by_cases hi : i = j
    · subst hi
      rw [mergeLoop, hmiss]
      simp
    · have hilt : i < j := by omega
      have hsome : st (chunkKey u i) = some (payload i) :=
        hbefore i (Nat.le_refl i) hilt
      have hrec := ih (i + 1) (storeDelete st (chunkKey u i)) (acc ++ payload i)
        (by omega) (by omega)
        (by
          by_cases hk : chunkKey u j = chunkKey u i
          · simp [storeDelete, hk]
          · rw [storeDelete_ne _ _ _ hk]; exact hmiss)
        (by
          intro k hk1 hk2
          rw [storeDelete_ne]
          · exact hbefore k (by omega) hk2
          · intro hkk
            have := chunkKey_inj hkk
            omega)
      rw [mergeLoop, hsome]
      refine ⟨hrec.1, ?_⟩
      rw [hrec.2]
      have hji : j - i = (j - (i + 1)) + 1 := by omega
      rw [hji, List.range'_succ, List.map_cons, List.flatten_cons, List.append_assoc]

/-! ### `path.extname` and folder sanitization -/

/-- Split a character list on a separator, like JavaScript `String.split`
with a single-character separator (`"".split(sep)` is `[""]`). -/
def splitChar (sep : Char) : List Char → List (List Char)
  | [] => [[]]
  | c :: cs =>
    let r := splitChar sep cs
    if c = sep then [] :: r
    else (c :: r.headD []) :: r.tail

/-- Node `path.extname` (posix): the suffix of the basename from its last dot,
empty when there is no dot, when the dot is the leading character (dotfiles),
or for the basename `".."`. -/
def extNameOfBase (base : List Char) : List Char :=
  if base = ['.', '.'] then []
  else
    let afterDot := base.reverse.takeWhile (fun c => !(c == '.'))
    if afterDot.length + 1 ≥ base.length then []
    else '.' :: afterDot.reverse

def extname (s : String) : String :=
  String.mk (extNameOfBase ((splitChar '/' s.toList).getLastD []))

/-- The characters kept by the folder sanitizer's regex `[a-zA-Z0-9-_]`. -/
def allowedChar (c : Char) : Bool :=
  c.isAlpha || c.isDigit || c == '-' || c == '_'

/-- `(folder || 'others').replace(/[^a-zA-Z0-9-_]/g, '') || 'others'`. -/
def sanitizeFolder (folder : Option String) : String :=
  let f := jsOrS folder "others"
  let kept := f.toList.filter allowedChar
  if kept = [] then "others" else String.mk kept

/-! ### `POST /upload/complete` -/

/-- The multipart form fields of a completion request; `none` is an absent field. -/
structure CompleteParams where
  uploadId : Option String
  fileName : Option String
  totalChunks : Option String
  title : Option String
  type : Option String
  isPrivate : Option String
  folder : Option String
  category : Option String
deriving DecidableEq

/-- The catalog document built on a successful merge (`createdAt`, a wall-clock
timestamp, is elided). -/
structure MediaDoc where
  title : String
  type : String
  url : String
  isPrivate : Bool
  folder : String
  category : String
  downloadCount : Nat
deriving DecidableEq

inductive HttpResponse where
  | badRequest (msg : String)
  | serverError (msg : String)
  | okJson (doc : MediaDoc)
deriving DecidableEq

/-- Observable outcome of one completion request.  `response = none` means the
handler never called any of `res.status/send/json`, so no HTTP response is
produced for this request.  `outputFile` is the content of the file created at
`finalPath` (`none` when `fs.createWriteStream` was never reached), `store` the
chunk directory afterwards, and `catalogInserted` the document handed to
`mediaCollection.insertOne` when that insert succeeded. -/
structure CompleteOutcome where
  response : Option HttpResponse
  outputFile : Option (List Nat)
  store : Store
  catalogInserted : Option MediaDoc

/-- The `mediaDoc` object built inside the `writeStream.end` callback:
```js
{ title: title || fileName,
  type: type || (path.extname(fileName).toLowerCase() === '.mp4' ? 'video' : 'image'),
  url: `/uploads/${folderName}/${finalFileName}`,
  isPrivate: isPrivate === 'true',
  folder: folderName, category: category || 'Uncategorized', downloadCount: 0 }
``` -/
def mediaDocOf (p : CompleteParams) (uniqueName : String) : MediaDoc :=
  { title := jsOrS p.title (p.fileName.getD "")
    type := jsOrS p.type
      (if toLowerStr (extname (p.fileName.getD "")) == ".mp4" then "video" else "image")
    url := "/uploads/" ++ sanitizeFolder p.folder ++ "/" ++
      (uniqueName ++ extname (p.fileName.getD ""))
    isPrivate := p.isPrivate == some "true"
    folder := sanitizeFolder p.folder
    category := jsOrS p.category "Uncategorized"
    downloadCount := 0 }

/-- The completion handler.  `catalogOk` says whether the catalog insert
succeeds; `uniqueName` stands for the generated
`` `${Date.now()}-${Math.round(Math.random()*1e9)}` `` prefix of the output file
name.  When all chunks are appended but the insert rejects, the rejection
happens inside the `async` callback passed to `writeStream.end`, outside the
`try/catch` of the handler body, so no response is ever sent: the merged file
stays on disk, no catalog record exists, and the request is left hanging
(in Node, an unhandled promise rejection). -/
def complete (p : CompleteParams) (st : Store) (catalogOk : Bool) (uniqueName : String) :
    CompleteOutcome :=
  if !(truthyS p.uploadId) || !(truthyS p.fileName) || !(truthyS p.totalChunks) then
    ⟨some (.badRequest "Missing parameters"), none, st, none⟩
  else
    let m := mergeLoop (p.uploadId.getD "") (jsLoopCount (p.totalChunks.getD "")) 0 st []
    match m.missing with
    | some i =>
      ⟨some (.badRequest ("Chunk " ++ toString i ++ " not found")), some m.written, m.store, none⟩
    | none =>
      if catalogOk then
        ⟨some (.okJson (mediaDocOf p uniqueName)), some m.written, m.store,
          some (mediaDocOf p uniqueName)⟩
      else ⟨none, some m.written, m.store, none⟩

/-! ### `GET /stream/:folder/:filename`

```js
const [startStr, endStr] = range.replace(/bytes=/, '').split('-');
const start = parseInt(startStr, 10);
const end = endStr ? parseInt(endStr, 10) : fileSize - 1;
if (start >= fileSize) return res.status(416).send('Requested range not satisfiable');
const chunkSize = end - start + 1;
const stream = fs.createReadStream(videoPath, { start, end });
res.writeHead(206, { 'Content-Range': `bytes ${start}-${end}/${fileSize}`, ... });
```

`NaN` is `none`; every comparison with `NaN` is false and `NaN` prints as
`"NaN"` in the template string. -/

/-- Remove the first occurrence of `pat` from a character list
(JavaScript `replace` with a non-global pattern). -/
def listReplaceFirst (pat : List Char) : List Char → List Char
  | [] => []
  | c :: cs =>
    if pat.isPrefixOf (c :: cs) then (c :: cs).drop pat.length
    else c :: listReplaceFirst pat cs

def rangeParts (r : String) : List (List Char) :=
  splitChar '-' (listReplaceFirst "bytes=".toList r.toList)

/-- `parseInt(startStr, 10)` of the first dash-separated field. -/
def rangeStartOf (r : String) : Option Int :=
  parseIntJS (String.mk ((rangeParts r).headD []))

/-- `endStr ? parseInt(endStr, 10) : fileSize - 1`: the second field when
present and non-empty, else the file's last byte index. -/
def rangeEndOf (fileSize : Int) (r : String) : Option Int :=
  match ((rangeParts r).drop 1).head? with
  | none => some (fileSize - 1)
  | some cs => if cs = [] then some (fileSize - 1) else parseIntJS (String.mk cs)

/-- `a >= b` where `a` may be `NaN` (always false then). -/
def jsGE (a : Option Int) (b : Int) : Bool :=
  match a with
  | none => false
  | some x => decide (b ≤ x)

/-- `end - start + 1` where either operand may be `NaN`. -/
def jsChunkSize (s e : Option Int) : Option Int :=
  match s, e with
  | some s, some e => some (e - s + 1)
  | _, _ => none

/-- How a JavaScript number prints inside a template string. -/
def jsShow : Option Int → String
  | none => "NaN"
  | some z => toString z

def contentRangeStr (s e : Option Int) (fileSize : Int) : String :=
  "bytes " ++ jsShow s ++ "-" ++ jsShow e ++ "/" ++ toString fileSize

inductive ServeBody where
  /-- Bytes piped from the read stream. -/
  | bytes (bs : List Nat)
  /-- A plain-text `res.send` payload. -/
  | text (msg : String)
deriving DecidableEq

/-- `fs.createReadStream(videoPath, { start, end })`: Node validates the
options synchronously — `start` and `end` must be integers with `0 ≤ start`,
`0 ≤ end` and `start ≤ end` — throwing `ERR_OUT_OF_RANGE` (`none`) otherwise;
a valid stream reads the inclusive byte window, truncated at end of file. -/
def createReadStream (artifact : List Nat) (s e : Option Int) : Option (List Nat) :=
  match s, e with
  | some s, some e =>
    if 0 ≤ s ∧ 0 ≤ e ∧ s ≤ e then some ((artifact.drop s.toNat).take (e - s + 1).toNat)
    else none
  | _, _ => none

/-- The explicitly-set response headers and body of the streaming endpoint
(headers Express adds on its own, e.g. a `Content-Length` for `res.send`
texts, are not modelled). -/
structure ServeResponse where
  status : Nat
  contentRange : Option String
  acceptRanges : Option String
  contentLength : Option Int
  contentType : Option String
  body : ServeBody
deriving DecidableEq

/-- The streaming handler for an existing stored artifact (the `fs.stat`
failure branch, a 404, is outside the claims, which all presuppose a stored
artifact).  In the source the read stream is constructed BEFORE
`res.writeHead(206, ...)`; when its `{ start, end }` options are invalid the
constructor's synchronous throw happens inside the `fs.stat` callback, is
caught by nothing, and no status or header is ever sent: that is the `none`
result. -/
def serve (artifact : List Nat) (range : Option String) : Option ServeResponse :=
  let fileSize : Int := artifact.length
  match range with
  | none => some ⟨200, none, none, some fileSize, some "video/mp4", .bytes artifact⟩
  | some r =>
    let start := rangeStartOf r
    let endv := rangeEndOf fileSize r
    if jsGE start fileSize then
      some ⟨416, none, none, none, none, .text "Requested range not satisfiable"⟩
    else
      match createReadStream artifact start endv with
      | none => none
      | some bs =>
        some ⟨206, some (contentRangeStr start endv fileSize), some "bytes",
          jsChunkSize start endv, some "video/mp4", .bytes bs⟩

/-- `true` when the response carries an empty payload. -/
def bodyIsEmpty : ServeBody → Bool
  | .bytes [] => true
  | .text "" => true
  | _ => false

/-! ### Path computation of the streaming endpoint

`path.join(baseUploadDir, folder, filename)` with the raw route parameters.
Paths are segment lists; `path.join` concatenates the segments of its
arguments and normalizes, resolving `..` against the preceding segment and
dropping `.` and empty segments. -/

def normalizeSegs (segs : List (List Char)) : List (List Char) :=
  segs.foldl
    (fun acc s =>
      if s = [] ∨ s = ['.'] then acc
      else if s = ['.', '.'] then acc.dropLast
      else acc ++ [s])
    []

/-- The path read by `GET /stream/:folder/:filename`. -/
def streamPath (base : List (List Char)) (folder filename : String) : List (List Char) :=
  normalizeSegs (base ++ splitChar '/' folder.toList ++ splitChar '/' filename.toList)

/-- A single harmless path segment: non-empty, no separator, not a dot segment. -/
def plainSeg (cs : List Char) : Prop :=
  cs ≠ [] ∧ '/' ∉ cs ∧ cs ≠ ['.'] ∧ cs ≠ ['.', '.']

/-! ### Helper lemmas -/

theorem splitChar_eq_self (sep : Char) :
    ∀ cs : List Char, sep ∉ cs → splitChar sep cs = [cs] := by
  intro cs
  induction cs with
  | nil => intro _; rfl
  | cons c cs ih =>
    intro h
    have hc : ¬(c = sep) := fun hc => h (hc ▸ List.mem_cons_self c cs)
    have hcs : sep ∉ cs := fun hm => h (List.mem_cons_of_mem c hm)
    rw [splitChar]
    simp only [hc, if_false, ih hcs]
    rfl

theorem isPrefixOf_append {α : Type} [BEq α] [LawfulBEq α] (l t : List α) :
    l.isPrefixOf (l ++ t) = true := by
  induction l with
  | nil => simp [List.isPrefixOf]
  | cons a l ih => simp [List.isPrefixOf, ih]

theorem sanitize_plain (f : Option String) : plainSeg (sanitizeFolder f).toList := by
  unfold sanitizeFolder
  by_cases h : (jsOrS f "others").toList.filter allowedChar = []
  · simp only [h, if_pos]
    refine ⟨by decide, by decide, by decide, by decide⟩
  · simp only [h, if_neg, not_false_iff]
    show plainSeg ((jsOrS f "others").toList.filter allowedChar)
    have hchars : ∀ c ∈ (jsOrS f "others").toList.filter allowedChar, allowedChar c = true := by
      intro c hc
      exact (List.mem_filter.mp hc).2
    have hnodot : '.' ∉ (jsOrS f "others").toList.filter allowedChar := by
      intro hm
      have := hchars '.' hm
      simp [allowedChar] at this
    have hnoslash : '/' ∉ (jsOrS f "others").toList.filter allowedChar := by
      intro hm
      have := hchars '/' hm
      simp [allowedChar] at this
    refine ⟨h, hnoslash, ?_, ?_⟩
    · intro he
      exact hnodot (he ▸ List.mem_cons_self '.' [])
    · intro he
      exact hnodot (he ▸ List.mem_cons_self '.' ['.'])

theorem normalizeSegs_append_plain (xs : List (List Char)) (s : List Char)
    (h1 : s ≠ []) (h2 : s ≠ ['.']) (h3 : s ≠ ['.', '.']) :
    normalizeSegs (xs ++ [s]) = normalizeSegs xs ++ [s] := by
  unfold normalizeSegs
  rw [List.foldl_append]
  simp [h1, h2, h3]

/-! ### The store produced by a sequence of chunk receipts -/

/-- The chunk store after the arrival sequence `arrivals` (index, payload) has
been posted to `POST /upload/chunk` for session `uid`, in list order. -/
def arrivalsStore (uid : String) (arrivals : List (Nat × List Nat)) : Store :=
  arrivals.foldl (fun s a => receive s uid (toString a.1) a.2) emptyStore

theorem foldl_receive_not_mem (uid : String) :
    ∀ (l : List (Nat × List Nat)) (st : Store) (i : Nat),
      i ∉ l.map Prod.fst →
      (l.foldl (fun s a => receive s uid (toString a.1) a.2) st) (chunkKey uid i) =
        st (chunkKey uid i) := by
  intro l
  induction l with
  | nil => intro st i _; rfl
  | cons a l ih =>
    intro st i h
    have h1 : i ≠ a.1 := by
      intro he
      exact h (by simp [he])
    have h2 : i ∉ l.map Prod.fst := by
      intro hm
      exact h (by simp [hm])
    rw [List.foldl_cons, ih _ i h2]
    show storePut st (uid ++ "-" ++ toString a.1) a.2 (chunkKey uid i) = st (chunkKey uid i)
    apply storePut_ne
    intro hk
    exact h1 (chunkKey_inj hk)

theorem foldl_receive_lookup (uid : String) :
    ∀ (l : List (Nat × List Nat)) (st : Store) (i : Nat) (b : List Nat),
      (l.map Prod.fst).Nodup → (i, b) ∈ l →
      (l.foldl (fun s a => receive s uid (toString a.1) a.2) st) (chunkKey uid i) = some b := by
  intro l
  induction l with
  | nil => intro st i b _ hm; exact absurd hm (List.not_mem_nil _)
  | cons a l ih =>
    intro st i b hnd hm
    have hnd' : (a.1 :: l.map Prod.fst).Nodup := by rw [List.map_cons] at hnd; exact hnd
    have hnd1 : a.1 ∉ l.map Prod.fst := (List.nodup_cons.mp hnd').1
    have hnd2 : (l.map Prod.fst).Nodup := (List.nodup_cons.mp hnd').2
    rcases List.mem_cons.mp hm with he | hmem
    · subst he
      rw [List.foldl_cons, foldl_receive_not_mem uid l _ i hnd1]
      show storePut st (uid ++ "-" ++ toString i) b (chunkKey uid i) = some b
      exact storePut_eq _ _ _
    · exact ih _ i b hnd2 hmem

/-! ### Characterizations of `complete` -/

theorem params_check_false {p : CompleteParams}
    (h1 : truthyS p.uploadId = true) (h2 : truthyS p.fileName = true)
    (h3 : truthyS p.totalChunks = true) :
    (!(truthyS p.uploadId) || !(truthyS p.fileName) || !(truthyS p.totalChunks)) = false := by
  rw [h1, h2, h3]
  rfl

theorem complete_params_bad (p : CompleteParams) (st : Store) (cat : Bool) (ub : String)
    (h : (!(truthyS p.uploadId) || !(truthyS p.fileName) || !(truthyS p.totalChunks)) = true) :
    complete p st cat ub = ⟨some (.badRequest "Missing parameters"), none, st, none⟩ := by
  unfold complete
  rw [h]
  simp

theorem complete_chunk_missing_eq (p : CompleteParams) (st : Store) (cat : Bool) (ub : String)
    (i : Nat)
    (h : (!(truthyS p.uploadId) || !(truthyS p.fileName) || !(truthyS p.totalChunks)) = false)
    (hm : (mergeLoop (p.uploadId.getD "") (jsLoopCount (p.totalChunks.getD "")) 0 st []).missing
        = some i) :
    complete p st cat ub =
      ⟨some (.badRequest ("Chunk " ++ toString i ++ " not found")),
        some (mergeLoop (p.uploadId.getD "") (jsLoopCount (p.totalChunks.getD "")) 0 st []).written,
        (mergeLoop (p.uploadId.getD "") (jsLoopCount (p.totalChunks.getD "")) 0 st []).store,
        none⟩ := by
  unfold complete
  rw [h]
  simp [hm]

theorem complete_ok_true (p : CompleteParams) (st : Store) (ub : String)
    (h : (!(truthyS p.uploadId) || !(truthyS p.fileName) || !(truthyS p.totalChunks)) = false)
    (hm : (mergeLoop (p.uploadId.getD "") (jsLoopCount (p.totalChunks.getD "")) 0 st []).missing
        = none) :
    complete p st true ub =
      ⟨some (.okJson (mediaDocOf p ub)),
        some (mergeLoop (p.uploadId.getD "") (jsLoopCount (p.totalChunks.getD "")) 0 st []).written,
        (mergeLoop (p.uploadId.getD "") (jsLoopCount (p.totalChunks.getD "")) 0 st []).store,
        some (mediaDocOf p ub)⟩ := by
  unfold complete
  rw [h]
  simp [hm]

theorem complete_catalog_fail (p : CompleteParams) (st : Store) (ub : String)
    (h : (!(truthyS p.uploadId) || !(truthyS p.fileName) || !(truthyS p.totalChunks)) = false)
    (hm : (mergeLoop (p.uploadId.getD "") (jsLoopCount (p.totalChunks.getD "")) 0 st []).missing
        = none) :
    complete p st false ub =
      ⟨none,
        some (mergeLoop (p.uploadId.getD "") (jsLoopCount (p.totalChunks.getD "")) 0 st []).written,
        (mergeLoop (p.uploadId.getD "") (jsLoopCount (p.totalChunks.getD "")) 0 st []).store,
        none⟩ := by
  unfold complete
  rw [h]
  simp [hm]

/-! ### Claim theorems -/

/-- Claim C1: for every upload session and every `N ≥ 1`, if chunks `0..N-1`
were each received exactly once, in any arrival order, then
`complete(sessionToken, fileName, totalChunks = N, ...)` succeeds and the
merged artifact's bytes are the concatenation of the chunk payloads in strict
index order, irrespective of the order of receipt. -/
theorem c1_merge_concat (uid : String) (N : Nat) (payload : Nat → List Nat)
    (arrivals : List (Nat × List Nat)) (p : CompleteParams) (tc ub : String)
    (huid : uid ≠ "") (hN : 1 ≤ N)
    (hperm : arrivals.Perm ((List.range N).map fun i => (i, payload i)))
    (hup : p.uploadId = some uid) (hfn : truthyS p.fileName = true)
    (htc : p.totalChunks = some tc) (htcv : jsNumber tc = some (N : Int)) :
    (complete p (arrivalsStore uid arrivals) true ub).response =
      some (HttpResponse.okJson (mediaDocOf p ub)) ∧
    (complete p (arrivalsStore uid arrivals) true ub).outputFile =
      some ((List.range N).map payload).flatten := by
  have hst : ∀ j, j < N → arrivalsStore uid arrivals (chunkKey uid j) = some (payload j) := by
    intro j hj
    have hnd : (arrivals.map Prod.fst).Nodup := by
      have h1 := hperm.map Prod.fst
      have h2 : ((List.range N).map fun i => (i, payload i)).map Prod.fst = List.range N := by
        rw [List.map_map]
        have hcomp : (Prod.fst ∘ fun i : Nat => (i, payload i)) = id := rfl
        rw [hcomp, List.map_id]
      rw [h2] at h1
      exact h1.nodup_iff.mpr (List.nodup_range N)
    have hmem : (j, payload j) ∈ arrivals := by
      apply hperm.mem_iff.mpr
      exact List.mem_map.mpr ⟨j, List.mem_range.mpr hj, rfl⟩
    exact foldl_receive_lookup uid arrivals emptyStore j (payload j) hnd hmem
  have hok := mergeLoop_ok uid payload N 0 (arrivalsStore uid arrivals) []
    (by intro k _ hk2; exact hst k (by omega))
  have htr1 : truthyS p.uploadId = true := by rw [hup]; simp [truthyS, huid]
  have htcne : tc ≠ "" := by
    intro he
    subst he
    simp [jsNumber] at htcv
    omega
  have htr3 : truthyS p.totalChunks = true := by rw [htc]; simp [truthyS, htcne]
  have hgd : p.uploadId.getD "" = uid := by rw [hup]; rfl
  have hlc : jsLoopCount (p.totalChunks.getD "") = N := by
    rw [htc]
    show jsLoopCount tc = N
    simp [jsLoopCount, htcv]
  have hmn : (mergeLoop (p.uploadId.getD "") (jsLoopCount (p.totalChunks.getD "")) 0
      (arrivalsStore uid arrivals) []).missing = none := by
    rw [hgd, hlc]
    exact hok.1
  have heq := complete_ok_true p (arrivalsStore uid arrivals) ub
    (params_check_false htr1 hfn htr3) hmn
  rw [heq]
  refine ⟨rfl, ?_⟩
  show some (mergeLoop (p.uploadId.getD "") (jsLoopCount (p.totalChunks.getD "")) 0
      (arrivalsStore uid arrivals) []).written = _
  rw [hgd, hlc, hok.2]
  simp [List.range_eq_range']

def payW1 : Nat → List Nat := fun i => if i = 0 then [1, 2] else [5, 6]

def pW1 : CompleteParams :=
  ⟨some "sess", some "a.mp4", some "2", none, none, none, none, none⟩

/-- Witness for C1 at a session whose two chunks arrived in reverse order. -/
theorem c1_merge_concat_w :
    (complete pW1 (arrivalsStore "sess" [(1, [5, 6]), (0, [1, 2])]) true "f").response =
      some (HttpResponse.okJson (mediaDocOf pW1 "f")) ∧
    (complete pW1 (arrivalsStore "sess" [(1, [5, 6]), (0, [1, 2])]) true "f").outputFile =
      some ((List.range 2).map payW1).flatten :=
  c1_merge_concat "sess" 2 payW1 [(1, [5, 6]), (0, [1, 2])] pW1 "2" "f"
    (by decide) (by decide) (by decide) rfl rfl rfl (by decide)

/-- Claim C2 (counterexample): with chunk 0 stored and chunk 1 missing,
`complete` with `totalChunks = 2` does report `Chunk 1 not found`, but a merged
output file HAS been created (holding chunk 0's bytes), contradicting the
claim's "no merged file is created". -/
theorem c2_leftover_file_cex :
    (complete pW1 (receive emptyStore "sess" "0" [1, 2]) true "f").response =
      some (HttpResponse.badRequest "Chunk 1 not found") ∧
    (complete pW1 (receive emptyStore "sess" "0" [1, 2]) true "f").outputFile ≠ none := by
  decide

/-- Claim C2 (amended): if some index below `N` has no stored chunk, `complete`
with `totalChunks = N` fails with a 400 naming the first missing index `j` and
hands no record to the catalog; however the partially written output file
remains, holding the concatenation of the chunk payloads below `j` (and those
chunks have been consumed). -/
theorem c2_chunk_missing (uid : String) (p : CompleteParams) (st : Store) (cat : Bool)
    (tc ub : String) (N j : Nat) (payload : Nat → List Nat)
    (huid : uid ≠ "")
    (hup : p.uploadId = some uid) (hfn : truthyS p.fileName = true)
    (htc : p.totalChunks = some tc) (htcv : jsNumber tc = some (N : Int))
    (hj : j < N) (hmiss : st (chunkKey uid j) = none)
    (hbefore : ∀ i, i < j → st (chunkKey uid i) = some (payload i)) :
    (complete p st cat ub).response =
      some (HttpResponse.badRequest ("Chunk " ++ toString j ++ " not found")) ∧
    (complete p st cat ub).catalogInserted = none ∧
    (complete p st cat ub).outputFile = some ((List.range j).map payload).flatten := by
  have hm := mergeLoop_missing uid payload j N 0 st [] (by omega) (by omega) hmiss
    (fun k _ hk2 => hbefore k hk2)
  have htr1 : truthyS p.uploadId = true := by rw [hup]; simp [truthyS, huid]
  have htcne : tc ≠ "" := by
    intro he
    subst he
    simp [jsNumber] at htcv
    omega
  have htr3 : truthyS p.totalChunks = true := by rw [htc]; simp [truthyS, htcne]
  have hgd : p.uploadId.getD "" = uid := by rw [hup]; rfl
  have hlc : jsLoopCount (p.totalChunks.getD "") = N := by
    rw [htc]
    show jsLoopCount tc = N
    simp [jsLoopCount, htcv]
  have hms : (mergeLoop (p.uploadId.getD "") (jsLoopCount (p.totalChunks.getD "")) 0 st
      []).missing = some j := by
    rw [hgd, hlc]
    exact hm.1
  have heq := complete_chunk_missing_eq p st cat ub j (params_check_false htr1 hfn htr3) hms
  rw [heq]
  refine ⟨rfl, rfl, ?_⟩
  show some (mergeLoop (p.uploadId.getD "") (jsLoopCount (p.totalChunks.getD "")) 0 st
      []).written = _
  rw [hgd, hlc, hm.2]
  simp [List.range_eq_range']

/-- Witness for C2 (amended) at a two-chunk session missing chunk 1. -/
theorem c2_chunk_missing_w :
    (complete pW1 (receive emptyStore "sess" "0" [1, 2]) true "g").response =
      some (HttpResponse.badRequest ("Chunk " ++ toString 1 ++ " not found")) ∧
    (complete pW1 (receive emptyStore "sess" "0" [1, 2]) true "g").catalogInserted = none ∧
    (complete pW1 (receive emptyStore "sess" "0" [1, 2]) true "g").outputFile =
      some ((List.range 1).map payW1).flatten :=
  c2_chunk_missing "sess" pW1 (receive emptyStore "sess" "0" [1, 2]) true "2" "g" 2 1 payW1
    (by decide) rfl rfl rfl (by decide) (by decide) (by decide) (by decide)

/-- Claim C5: a completion request missing `uploadId`, `fileName` or
`totalChunks` fails with the 400 `Missing parameters` response before any
file-system or catalog I/O: no output file is created, the chunk store is
untouched, and nothing is handed to the catalog. -/
theorem c5_missing_parameters (p : CompleteParams) (st : Store) (cat : Bool) (ub : String)
    (h : p.uploadId = none ∨ p.fileName = none ∨ p.totalChunks = none) :
    (complete p st cat ub).response = some (HttpResponse.badRequest "Missing parameters") ∧
    (complete p st cat ub).outputFile = none ∧
    (complete p st cat ub).store = st ∧
    (complete p st cat ub).catalogInserted = none := by
  have hcond :
      (!(truthyS p.uploadId) || !(truthyS p.fileName) || !(truthyS p.totalChunks)) = true := by
    rcases h with h | h | h <;> rw [h] <;> simp [truthyS]
  rw [complete_params_bad p st cat ub hcond]
  exact ⟨rfl, rfl, rfl, rfl⟩

def pW5 : CompleteParams :=
  ⟨none, some "a.mp4", some "1", none, none, none, none, none⟩

/-- Witness for C5 at a request with no `uploadId`. -/
theorem c5_missing_parameters_w :
    (complete pW5 emptyStore true "f").response =
      some (HttpResponse.badRequest "Missing parameters") ∧
    (complete pW5 emptyStore true "f").outputFile = none ∧
    (complete pW5 emptyStore true "f").store = emptyStore ∧
    (complete pW5 emptyStore true "f").catalogInserted = none :=
  c5_missing_parameters pW5 emptyStore true "f" (Or.inl rfl)

def pC7 : CompleteParams :=
  ⟨some "sess", some "a.mp4", some "1", none, some "", none, none, none⟩

/-- Claim C7 (counterexample): a `type` field that is present but empty is
falsy, so the recorded kind is the extension-inferred `"video"`, not the
supplied (empty) `type`. -/
theorem c7_empty_type_cex :
    pC7.type = some "" ∧
    (complete pC7 (receive emptyStore "sess" "0" [1]) true "f").catalogInserted.map
      MediaDoc.type = some "video" ∧
    ("video" : String) ≠ "" := by
  decide

/-- Claim C7 (amended): on every successful merge the recorded media kind is
the supplied `type` field when it is present and non-empty; otherwise
(absent or empty `type`) it is inferred from `declaredFileName`'s extension:
a `.mp4` extension (case-insensitively) yields `video`, anything else
`image`. -/
theorem c7_media_kind (p : CompleteParams) (st : Store) (cat : Bool) (ub : String)
    (doc : MediaDoc)
    (h : (complete p st cat ub).catalogInserted = some doc) :
    (∀ t, p.type = some t → t ≠ "" → doc.type = t) ∧
    ((p.type = none ∨ p.type = some "") →
      doc.type =
        (if toLowerStr (extname (p.fileName.getD "")) == ".mp4" then "video" else "image")) := by
  have hdoc : doc = mediaDocOf p ub := by
    by_cases hc :
        (!(truthyS p.uploadId) || !(truthyS p.fileName) || !(truthyS p.totalChunks)) = true
    · rw [complete_params_bad p st cat ub hc] at h
      exact absurd h (by simp)
    · have hc' :
          (!(truthyS p.uploadId) || !(truthyS p.fileName) || !(truthyS p.totalChunks)) = false := by
        revert hc
        cases (!(truthyS p.uploadId) || !(truthyS p.fileName) || !(truthyS p.totalChunks)) <;> simp
      cases hmm : (mergeLoop (p.uploadId.getD "") (jsLoopCount (p.totalChunks.getD "")) 0 st
          []).missing with
      | some i =>
        rw [complete_chunk_missing_eq p st cat ub i hc' hmm] at h
        exact absurd h (by simp)
      | none =>
        cases cat with
        | false =>
          rw [complete_catalog_fail p st ub hc' hmm] at h
          exact absurd h (by simp)
        | true =>
          rw [complete_ok_true p st ub hc' hmm] at h
          simp at h
          exact h.symm
  constructor
  · intro t ht htne
    rw [hdoc]
    show jsOrS p.type _ = t
    rw [ht]
    simp [jsOrS, htne]
  · intro hcase
    rw [hdoc]
    show jsOrS p.type _ = _
    rcases hcase with hc0 | hc0 <;> rw [hc0] <;> simp [jsOrS]

def pW7 : CompleteParams :=
  ⟨some "sess", some "a.mp4", some "1", none, some "video", none, none, none⟩

/-- Witness for C7 (amended): an explicitly supplied non-empty `type` is
recorded verbatim. -/
theorem c7_media_kind_w : (mediaDocOf pW7 "f").type = "video" :=
  (c7_media_kind pW7 (receive emptyStore "sess" "0" [1]) true "f" (mediaDocOf pW7 "f")
    (by decide)).1 "video" rfl (by decide)

def pC8 : CompleteParams :=
  ⟨some "sess", some "a.mp4", some "1", none, none, none, none, none⟩

/-- Claim C8 (code bug): when all chunks are present and appended but the
catalog insert fails, the rejection escapes the handler's `try/catch` (it
happens inside the `async` callback given to `writeStream.end`), so NO
response at all is sent to the caller — not the claimed `CatalogWriteFailed`
error response — while the merged artifact remains on disk and no catalog
record exists. -/
theorem c8_catalog_failure_no_response :
    (complete pC8 (receive emptyStore "sess" "0" [9, 8]) false "f").response = none ∧
    (complete pC8 (receive emptyStore "sess" "0" [9, 8]) false "f").outputFile = some [9, 8] ∧
    (complete pC8 (receive emptyStore "sess" "0" [9, 8]) false "f").catalogInserted = none := by
  decide

theorem createReadStream_start_nan (a : List Nat) (e : Option Int) :
    createReadStream a none e = none := by
  cases e <;> rfl

/-- A 1000-byte stored artifact, as in the spec's streaming examples. -/
def artifact1000 : List Nat := List.replicate 1000 7

/-- Claim C3 (counterexample): `bytes=2000-` against a 1000-byte artifact does
get status 416, but the response body is NOT empty — `res.send` attaches the
plain-text message `Requested range not satisfiable`. -/
theorem c3_body_cex :
    serve artifact1000 (some "bytes=2000-") =
      some ⟨416, none, none, none, none, .text "Requested range not satisfiable"⟩ ∧
    bodyIsEmpty (.text "Requested range not satisfiable") = false := by
  decide

/-- Claim C3 (amended): whenever the `start` field of the Range header parses
to an integer `s ≥ fileSize`, the endpoint responds 416 (Range Not
Satisfiable) carrying none of the artifact's bytes — only the short plain-text
error message as its body. -/
theorem c3_range_unsatisfiable (artifact : List Nat) (r : String) (s : Int)
    (hs : rangeStartOf r = some s) (hge : (artifact.length : Int) ≤ s) :
    serve artifact (some r) =
      some ⟨416, none, none, none, none, .text "Requested range not satisfiable"⟩ := by
  have hj : jsGE (some s) ((artifact.length : Int)) = true := by
    simp only [jsGE, decide_eq_true_eq]
    exact hge
  unfold serve
  simp [hs, hj]

/-- Witness for C3 (amended): `bytes=2000-` on the 1000-byte artifact. -/
theorem c3_range_unsatisfiable_w :
    rangeStartOf "bytes=2000-" = some 2000 ∧
    serve artifact1000 (some "bytes=2000-") =
      some ⟨416, none, none, none, none, .text "Requested range not satisfiable"⟩ :=
  ⟨by decide, c3_range_unsatisfiable artifact1000 "bytes=2000-" 2000 (by decide) (by decide)⟩

/-- Claim C4: a Range header whose fields parse to integers
`0 ≤ start ≤ end < fileSize` yields status 206,
`Content-Range: bytes <start>-<end>/<fileSize>`, `Accept-Ranges: bytes`,
`Content-Length = end - start + 1`, and exactly bytes `start..end` of the
artifact as the body. -/
theorem c4_range_request_206 (artifact : List Nat) (r : String) (s e : Int)
    (hs : rangeStartOf r = some s) (he : rangeEndOf (artifact.length : Int) r = some e)
    (h0 : 0 ≤ s) (hse : s ≤ e) (hef : e < (artifact.length : Int)) :
    serve artifact (some r) =
      some ⟨206,
        some ("bytes " ++ toString s ++ "-" ++ toString e ++ "/" ++
          toString ((artifact.length : Int))),
        some "bytes", some (e - s + 1), some "video/mp4",
        .bytes ((artifact.drop s.toNat).take (e - s + 1).toNat)⟩ := by
  have hj : jsGE (some s) ((artifact.length : Int)) = false := by
    simp only [jsGE, decide_eq_false_iff_not]
    omega
  have he0 : 0 ≤ e := le_trans h0 hse
  unfold serve
  simp [hs, he, hj, createReadStream, contentRangeStr, jsShow, jsChunkSize, h0, he0, hse]

/-- Witness for C4: `bytes=0-99` on the 1000-byte artifact (status 206,
`Content-Range: bytes 0-99/1000`, `Content-Length: 100`, first 100 bytes). -/
theorem c4_range_request_206_w :
    rangeStartOf "bytes=0-99" = some 0 ∧
    rangeEndOf ((artifact1000.length : Int)) "bytes=0-99" = some 99 ∧
    serve artifact1000 (some "bytes=0-99") =
      some ⟨206,
        some ("bytes " ++ toString (0 : Int) ++ "-" ++ toString (99 : Int) ++ "/" ++
          toString ((artifact1000.length : Int))),
        some "bytes", some ((99 : Int) - 0 + 1), some "video/mp4",
        .bytes ((artifact1000.drop (0 : Int).toNat).take (((99 : Int) - 0 + 1)).toNat)⟩ :=
  ⟨by decide, by decide,
    c4_range_request_206 artifact1000 "bytes=0-99" 0 99 (by decide) (by decide) (by decide)
      (by decide) (by decide)⟩

/-- Claim C6 (counterexample): the non-numeric-start request `bytes=abc-` does
NOT behave like `bytes=0-` on the same artifact — `parseInt` yields `NaN`,
not `0`: `bytes=0-` produces a full-window 206 response, while `bytes=abc-`
produces no response at all. -/
theorem c6_nan_cex :
    serve artifact1000 (some "bytes=abc-") ≠ serve artifact1000 (some "bytes=0-") := by
  decide

/-- Claim C6 (amended): a Range header whose `start` field is non-numeric
parses to `NaN`, not `0`.  `NaN >= fileSize` is false, so the 416 branch is
skipped, but then `fs.createReadStream` throws synchronously on the `NaN`
start BEFORE `res.writeHead(206, ...)`: the handler sends no status, headers
or body at all — nothing like the behaviour of `start = 0`. -/
theorem c6_nan_range (artifact : List Nat) (r : String)
    (hs : rangeStartOf r = none) :
    serve artifact (some r) = none := by
  unfold serve
  simp [hs, jsGE, createReadStream_start_nan]

/-- Witness for C6 (amended): `bytes=abc-` on a 3-byte artifact. -/
theorem c6_nan_range_w :
    rangeStartOf "bytes=abc-" = none ∧
    serve [1, 2, 3] (some "bytes=abc-") = none :=
  ⟨by decide, c6_nan_range [1, 2, 3] "bytes=abc-" (by decide)⟩

/-- Claim C9 (counterexample): for `end < start` (here `bytes=5-2` on a
10-byte artifact) NO 206 response is sent: `fs.createReadStream` throws
`ERR_OUT_OF_RANGE` on `start > end` before `res.writeHead`, so the handler
produces no response at all, refuting "the response still carries status
206". -/
theorem c9_end_lt_start_cex :
    serve (List.replicate 10 3) (some "bytes=5-2") = none := by
  decide

/-- Claim C9 (amended): the handler's own checks validate only the start of
the range — the parsed `end` is never clamped to `fileSize - 1` and
`end < start` is never rejected by the handler.  For a numeric
`0 ≤ start < fileSize ≤ end` the response is a 206 whose
`Content-Range`/`Content-Length` are computed from the raw `end` and describe
no valid sub-window (the piped bytes stop at end of file); for `end < start`,
however, the read-stream constructor throws before `res.writeHead`, so no
response is sent at all. -/
theorem c9_unvalidated_end (artifact : List Nat) (r : String) (s e : Int)
    (hs : rangeStartOf r = some s) (he : rangeEndOf (artifact.length : Int) r = some e)
    (h0 : 0 ≤ s) (hsf : s < (artifact.length : Int)) :
    ((artifact.length : Int) ≤ e →
      serve artifact (some r) =
        some ⟨206,
          some ("bytes " ++ toString s ++ "-" ++ toString e ++ "/" ++
            toString ((artifact.length : Int))),
          some "bytes", some (e - s + 1), some "video/mp4",
          .bytes ((artifact.drop s.toNat).take (e - s + 1).toNat)⟩) ∧
    (e < s → serve artifact (some r) = none) := by
  have hj : jsGE (some s) ((artifact.length : Int)) = false := by
    simp only [jsGE, decide_eq_false_iff_not]
    omega
  constructor
  · intro hfe
    have hse : s ≤ e := by omega
    have he0 : 0 ≤ e := by omega
    unfold serve
    simp [hs, he, hj, createReadStream, contentRangeStr, jsShow, jsChunkSize, h0, he0, hse]
  · intro hes
    have hbad : ¬(0 ≤ s ∧ 0 ≤ e ∧ s ≤ e) := by omega
    unfold serve
    simp [hs, he, hj, createReadStream, hbad]

/-- Witness for C9 (amended): `bytes=2-50` on a 10-byte artifact — a 206 with
`Content-Length: 49` and `Content-Range: bytes 2-50/10`, while the piped
bytes stop at end of file. -/
theorem c9_unvalidated_end_w :
    serve (List.replicate 10 3) (some "bytes=2-50") =
      some ⟨206,
        some ("bytes " ++ toString (2 : Int) ++ "-" ++ toString (50 : Int) ++ "/" ++
          toString (((List.replicate 10 3 : List Nat).length : Int))),
        some "bytes", some ((50 : Int) - 2 + 1), some "video/mp4",
        .bytes (((List.replicate 10 3).drop (2 : Int).toNat).take
          (((50 : Int) - 2 + 1)).toNat)⟩ :=
  (c9_unvalidated_end (List.replicate 10 3) "bytes=2-50" 2 50 (by decide) (by decide)
    (by decide) (by decide)).1 (by decide)

def baseW : List (List Char) :=
  [String.toList "srv", String.toList "app", String.toList "uploads"]

/-- Claim C10 (counterexample): the streaming endpoint joins the raw route
parameters, so `folder = ".."` escapes the base storage root —
`join(base, "..", "x")` is not inside `base`. -/
theorem c10_traversal_cex :
    baseW.isPrefixOf (streamPath baseW ".." "x") = false := by
  decide

/-- Claim C10 (amended): the streaming endpoint applies no sanitization, so
path confinement does NOT hold in general — a raw `..` parameter escapes the
base root.  Confinement does hold whenever the folder and filename parameters
are plain single segments (non-empty, no `/`, not `.` or `..`); in
particular a folder that went through the upload handlers' sanitization
(stripping to `[a-zA-Z0-9-_]`, defaulting to `others`) is always such a
segment. -/
theorem c10_sanitized_confinement (base : List (List Char)) (f : Option String)
    (filename : String)
    (hbase : normalizeSegs base = base)
    (h1 : filename.toList ≠ []) (h2 : '/' ∉ filename.toList)
    (h3 : filename.toList ≠ ['.']) (h4 : filename.toList ≠ ['.', '.']) :
    base.isPrefixOf (streamPath base (sanitizeFolder f) filename) = true := by
  obtain ⟨hs1, hs2, hs3, hs4⟩ := sanitize_plain f
  unfold streamPath
  rw [splitChar_eq_self '/' _ hs2, splitChar_eq_self '/' _ h2]
  rw [normalizeSegs_append_plain _ _ h1 h3 h4]
  rw [normalizeSegs_append_plain _ _ hs1 hs3 hs4]
  rw [hbase, List.append_assoc]
  exact isPrefixOf_append base _

/-- Witness for C10 (amended): a folder parameter containing `/` and `..` is
sanitized before joining, and the result stays inside the base root. -/
theorem c10_sanitized_confinement_w :
    baseW.isPrefixOf (streamPath baseW (sanitizeFolder (some "va/c..")) "v.mp4") = true :=
  c10_sanitized_confinement baseW (some "va/c..") "v.mp4" (by decide) (by decide) (by decide)
    (by decide) (by decide)

end SnapGallery
